import Mathlib

/-!
Verification of the QEMaker quiz parser and grading engine.

The definitions below are a shallow embedding of the TypeScript source:
  - `src/utils/parseQuiz.ts` (free-text quiz parser), and
  - `src/lib/db.ts` (grading in `submitQuiz`, the student view in
    `fetchQuizForStudent`, attempt counting, and the correct-answer edit),
  - `src/pages/student/TakeQuizPage.tsx` (attempt-limit admission).

Strings are modelled with Lean strings; JavaScript regular-expression tests
used by the parser are modelled by equivalent explicit character scans, and
string primitives such as `trim`, `toLowerCase` and `split` are implemented
structurally on character lists so that every definition evaluates inside
the kernel.  JavaScript numbers are IEEE-754 binary64 values; the one
arithmetic expression that matters (`Math.round((score / total) * 100)`) is
modelled exactly, with each floating-point operation rounding its exact
rational result to 53 significand bits (round to nearest, ties to even).
-/

namespace QEMaker

/-! ### String primitives -/

/-- Model of `String.prototype.trim` on a character list: drop whitespace at both
ends. -/
def trimChars (cs : List Char) : List Char :=
  ((cs.dropWhile Char.isWhitespace).reverse.dropWhile Char.isWhitespace).reverse

/-- Model of `String.prototype.trim`. -/
def jsTrim (s : String) : String :=
  String.mk (trimChars s.toList)

/-- Model of `String.prototype.toLowerCase` (ASCII letters, which are the only
letters the parser and email normalization rely on). -/
def jsToLower (s : String) : String :=
  String.mk (s.toList.map Char.toLower)

/-- Model of `String.prototype.split('\n')` on a character list. -/
def splitLinesAux : List Char → List Char → List (List Char)
  | [], cur => [cur.reverse]
  | c :: rest, cur =>
    if c = '\n' then cur.reverse :: splitLinesAux rest []
    else splitLinesAux rest (c :: cur)

/-- Model of `String.prototype.split('\n')`. -/
def splitLines (s : String) : List String :=
  (splitLinesAux s.toList []).map String.mk

/-! ### Data model (`src/types/index.ts`) -/

/-- One answer option of a question (`QuizOption` in `src/types/index.ts`). -/
structure QuizOption where
  label : String
  text  : String
deriving DecidableEq, Repr

/-- One quiz item (`Question` in `src/types/index.ts`);
`correctAnswer` is optional there. -/
structure Question where
  number        : Nat
  question      : String
  options       : List QuizOption
  correctAnswer : Option String
deriving DecidableEq, Repr

/-! ### Parser (`parseQuiz` in `src/utils/parseQuiz.ts`) -/

/-- The character class `[a-dA-D]` of the option-line regex. -/
def isOptionLabelChar (c : Char) : Bool :=
  (('a' : Char) ≤ c && c ≤ 'd') || (('A' : Char) ≤ c && c ≤ 'D')

/-- Match of `/^([a-dA-D])[.)]\s*(.+)/` on a trimmed line: a label letter,
a `.` or `)` delimiter, and a non-empty remainder.  Returns the lowercased
label (group 1 lowercased, as in `m[1].toLowerCase()`) and the remainder
after the delimiter; the caller trims it, which coincides with the regex
group 2 followed by `.trim()` on lines that carry no trailing whitespace. -/
def optionMatch (l : String) : Option (String × String) :=
  match l.toList with
  | c0 :: c1 :: rest =>
    if isOptionLabelChar c0 && (c1 = '.' || c1 = ')') && !rest.isEmpty then
      some ((Char.toLower c0).toString, String.mk rest)
    else
      none
  | _ => none

/-- Test of `/\s*-?\s*correct\s*$/i` on the option text: since the leading
`\s*-?\s*` may be empty, the regex matches exactly when the text, ignoring
trailing whitespace, ends with `correct` case-insensitively. -/
def hasCorrectMarker (text : String) : Bool :=
  List.isPrefixOf "tcerroc".toList
    ((text.toList.reverse.dropWhile Char.isWhitespace).map Char.toLower)

/-- Replacement `text.replace(/\s*-?\s*correct\s*$/i, '')`: remove the
leftmost match reaching the end of the string, i.e. the final `correct`
word together with trailing whitespace after it and the maximal run
`whitespace* hyphen? whitespace*` before it. -/
def stripCorrectMarker (text : String) : String :=
  let r1 := text.toList.reverse.dropWhile Char.isWhitespace
  let r2 := (r1.drop 7).dropWhile Char.isWhitespace
  let r3 := match r2 with
    | c :: rest => if c = '-' then rest else r2
    | [] => r2
  String.mk (r3.dropWhile Char.isWhitespace).reverse

/-- The option-collecting loop of `parseQuiz` (lines 43–56 of
`parseQuiz.ts`): walk the lines after the question line, keeping the
options pushed so far and the latest correct-answer label. -/
def scanLoop : List String → List QuizOption → Option String →
    List QuizOption × Option String
  | [], opts, ca => (opts, ca)
  | l :: rest, opts, ca =>
    match optionMatch l with
    | none => scanLoop rest opts ca
    | some (label, body) =>
      let text := jsTrim body
      if hasCorrectMarker text then
        scanLoop rest (opts ++ [⟨label, jsTrim (stripCorrectMarker text)⟩]) (some label)
      else
        scanLoop rest (opts ++ [⟨label, text⟩]) ca

/-- Test of `/^\d+[.)]\s*.+/` on a trimmed line: a non-empty digit run,
a `.` or `)` delimiter, and a non-empty remainder. -/
def isQuestionLine (l : String) : Bool :=
  let ds := l.toList.takeWhile Char.isDigit
  match ds, l.toList.dropWhile Char.isDigit with
  | _ :: _, c :: _ :: _ => c = '.' || c = ')'
  | _, _ => false

/-- Replacement `l.replace(/^\d+[.)]\s*/, '')`: strip the leading digit
run, the delimiter and following whitespace when the pattern matches,
otherwise return the line unchanged. -/
def stripQuestionNumber (l : String) : String :=
  let ds := l.toList.takeWhile Char.isDigit
  match ds, l.toList.dropWhile Char.isDigit with
  | _ :: _, c :: cr =>
    if c = '.' || c = ')' then String.mk (cr.dropWhile Char.isWhitespace) else l
  | _, _ => l

/-- Processing of one block (lines 25–58 of `parseQuiz.ts`): the question
text, options and correct answer of the block, or `none` when the block is
skipped. -/
def parseBlock (block : String) : Option (String × List QuizOption × Option String) :=
  let lines := ((splitLines block).map jsTrim).filter (· ≠ "")
  if lines.length < 2 then none
  else
    match lines.findIdx? (fun l => isQuestionLine l) with
    | none => none
    | some qIdx =>
      let questionText := jsTrim (stripQuestionNumber (lines.getD qIdx ""))
      if questionText = "" then none
      else
        let scanned := scanLoop (lines.drop (qIdx + 1)) [] none
        if scanned.1 = [] then none
        else some (questionText, scanned.1, scanned.2)

/-- Model of `rawText.split(/={3,}/g)`, scanned left to right: `pending` counts the
`=` characters seen since the last non-`=` character, `cur` holds the
current segment reversed.  A run of three or more `=` is one separator;
shorter runs stay in the text. -/
def splitBlocksAux : List Char → List Char → Nat → List (List Char)
  | [], cur, pending =>
    if 3 ≤ pending then [cur.reverse, []]
    else [(List.replicate pending '=' ++ cur).reverse]
  | c :: rest, cur, pending =>
    if c = '=' then
      splitBlocksAux rest cur (pending + 1)
    else if 3 ≤ pending then
      cur.reverse :: splitBlocksAux rest [c] 0
    else
      splitBlocksAux rest (c :: List.replicate pending '=' ++ cur) 0

/-- Lines 18–21 of `parseQuiz.ts`: split on runs of three or more `=`,
trim each piece, drop the empty ones. -/
def quizBlocks (rawText : String) : List String :=
  (((splitBlocksAux rawText.toList [] 0).map
    (fun cs => jsTrim (String.mk cs)))).filter (· ≠ "")

/-- The main loop of `parseQuiz` (lines 25–66): each accepted block is
appended as a `Question` numbered by the count of questions already
emitted plus one. -/
def parseLoop : List String → List Question → List Question
  | [], acc => acc
  | b :: bs, acc =>
    match parseBlock b with
    | none => parseLoop bs acc
    | some (questionText, opts, ca) =>
      parseLoop bs (acc ++ [⟨acc.length + 1, questionText, opts, ca⟩])

/-- The function `parseQuiz` from `src/utils/parseQuiz.ts` (exposed in the spec as
`parseQuizText`): empty or whitespace-only input yields no questions,
otherwise the blocks are processed in order. -/
def parseQuiz (rawText : String) : List Question :=
  if jsTrim rawText = "" then []
  else parseLoop (quizBlocks rawText) []

/-! ### Characterization of the option scan (derived, used to state C3) -/

/-- The option a line contributes: the lowercased label and the trimmed
text, with a trailing correct-marker stripped when present. -/
def emitOption (l : String) : Option QuizOption :=
  (optionMatch l).map (fun p =>
    let text := jsTrim p.2
    if hasCorrectMarker text then ⟨p.1, jsTrim (stripCorrectMarker text)⟩
    else ⟨p.1, text⟩)

/-- The label a line contributes to the block's correct answer, when its
trailing text carries the correct marker. -/
def markedLabel (l : String) : Option String :=
  (optionMatch l).bind (fun p =>
    if hasCorrectMarker (jsTrim p.2) then some p.1 else none)

/-! ### IEEE-754 binary64 model

JavaScript numbers are IEEE-754 binary64.  `roundDouble` rounds the exact
rational result of an operation to 53 significand bits (round to nearest,
ties to even); every value arising in the grading computation is normal
and far from overflow, so subnormals and infinities are not modelled. -/

/-- Bit length of a natural number, written with explicit fuel so that it
evaluates inside the kernel (the fuel bounds the bit length itself, and
4096 covers every number arising here). -/
def bitLenAux : Nat → Nat → Nat → Nat
  | 0, _, acc => acc
  | fuel + 1, n, acc => if n = 0 then acc else bitLenAux fuel (n / 2) (acc + 1)

/-- Bit length: `bitLen n = k` iff `2 ^ (k - 1) ≤ n < 2 ^ k` for `n > 0`. -/
def bitLen (n : Nat) : Nat := bitLenAux 4096 n 0

/-- The power `2 ^ e` as a rational, for an integer exponent.  Written with the core
`Rat` operations so that it evaluates inside the kernel. -/
def pow2 (e : ℤ) : ℚ :=
  if 0 ≤ e then Rat.divInt (Int.ofNat (2 ^ e.toNat)) 1
  else Rat.divInt 1 (Int.ofNat (2 ^ (-e).toNat))

/-- The binade of a positive rational: the integer `e` with
`2 ^ e ≤ q < 2 ^ (e + 1)`. -/
def ratExp2 (q : ℚ) : ℤ :=
  let e0 : ℤ := (bitLen q.num.natAbs : ℤ) - (bitLen q.den : ℤ)
  if Rat.blt q (pow2 e0) then e0 - 1 else e0

/-- Round to the nearest integer, ties to even. -/
def roundTiesEven (m : ℚ) : ℤ :=
  let f := m.floor
  let r := Rat.sub m (Rat.divInt f 1)
  if Rat.blt r (Rat.divInt 1 2) then f
  else if Rat.blt (Rat.divInt 1 2) r then f + 1
  else if f % 2 = 0 then f else f + 1

/-- Round a non-negative rational to the nearest IEEE-754 binary64 value. -/
def roundDouble (q : ℚ) : ℚ :=
  if Rat.blt 0 q then
    let e := ratExp2 q
    Rat.mul (Rat.divInt (roundTiesEven (Rat.mul q (pow2 (52 - e)))) 1) (pow2 (e - 52))
  else 0

/-- A JavaScript division, correctly rounded to binary64. -/
def jsDiv (x y : ℚ) : ℚ := roundDouble (Rat.div x y)

/-- A JavaScript multiplication, correctly rounded to binary64. -/
def jsMul (x y : ℚ) : ℚ := roundDouble (Rat.mul x y)

/-- Model of `Math.round`: nearest integer, halves toward positive infinity,
applied to the exact value of its double argument. -/
def jsMathRound (q : ℚ) : ℤ := (Rat.add q (Rat.divInt 1 2)).floor

/-! ### Grading engine (`submitQuiz` in `src/lib/db.ts`, lines 167–232) -/

/-- Per-question grading outcome (`AnswerRecord` in `src/types/index.ts`). -/
structure AnswerRecord where
  questionNumber : Nat
  question       : String
  chosen         : String
  chosenText     : String
  correct        : String
  correctText    : String
  isCorrect      : Bool
deriving DecidableEq, Repr

/-- Model of `const chosen = answers[q.number] || null`: an absent entry and an
empty-string entry both become `null`. -/
def chosenFor (answers : Nat → Option String) (n : Nat) : Option String :=
  match answers n with
  | some s => if s = "" then none else some s
  | none => none

/-- The body of the `quiz.questions.map` in `submitQuiz` (lines 190–207 of
`db.ts`). -/
def gradeQuestion (answers : Nat → Option String) (q : Question) : AnswerRecord :=
  let chosen := chosenFor answers q.number
  let isCorrect : Bool :=
    match chosen, q.correctAnswer with
    | some c, some a => c == a
    | _, _ => false
  let chosenOption :=
    match chosen with
    | some c => q.options.find? (fun (o : QuizOption) => o.label == c)
    | none => none
  let correctOption :=
    match q.correctAnswer with
    | some a => q.options.find? (fun (o : QuizOption) => o.label == a)
    | none => none
  { questionNumber := q.number
    question := q.question
    chosen := chosen.getD ""
    chosenText := (chosenOption.map QuizOption.text).getD ""
    correct := q.correctAnswer.getD ""
    correctText := (correctOption.map QuizOption.text).getD ""
    isCorrect := isCorrect }

/-- Model of `const gradedAnswers = quiz.questions.map(q => …)`. -/
def gradeAnswers (questions : List Question) (answers : Nat → Option String) :
    List AnswerRecord :=
  questions.map (gradeQuestion answers)

/-- The `score` accumulated by `if (isCorrect) score++` inside the map. -/
def gradeScore (questions : List Question) (answers : Nat → Option String) : Nat :=
  (gradeAnswers questions answers).countP (fun r => r.isCorrect)

/-- Model of `total > 0 ? Math.round((score / total) * 100) : 0` (line 210 of
`db.ts`), with the double-precision arithmetic modelled exactly. -/
def gradePercentage (score total : Nat) : ℤ :=
  if 0 < total then
    jsMathRound (jsMul (jsDiv (Rat.divInt (Int.ofNat score) 1)
      (Rat.divInt (Int.ofNat total) 1)) (Rat.divInt 100 1))
  else 0

/-- Modelled from the spec: `percentage == round(100*score/total)` (or 0
when `total == 0`) with standard round-half-up on the exact rational
quotient (§3 and §8 of the spec).  The source instead computes the
quotient and product in binary64 before rounding; this definition is the
comparison point for claim C2. -/
def specPercentage (score total : Nat) : ℤ :=
  if 0 < total then
    (Rat.add (Rat.divInt (Int.ofNat (100 * score)) (Int.ofNat total)) (Rat.divInt 1 2)).floor
  else 0

/-! ### Store-facing records (`src/types/index.ts`, `src/lib/db.ts`) -/

/-- A stored quiz (`Quiz` in `src/types/index.ts`).  The `section` field
of submissions is called `sectionText` here because `section` is reserved
in Lean. -/
structure Quiz where
  id : String
  title : String
  class_id : String
  class_code : String
  admin_id : String
  questions : List Question
  raw_input : String
  is_active : Bool
  max_attempts : Nat
deriving Repr

/-- The argument object of `submitQuiz` (`db.ts` lines 167–174);
`answers` is the `Record<number, string>` of chosen labels. -/
structure SubmitPayload where
  quizId : String
  email : String
  fullName : String
  sectionText : String
  yearCourse : String
  answers : Nat → Option String

/-- The row inserted into `submissions` by `submitQuiz` (lines 212–226). -/
structure SubmissionRow where
  quiz_id : String
  class_id : String
  class_code : String
  email : String
  full_name : String
  sectionText : String
  year_course : String
  answers : List AnswerRecord
  score : Nat
  total : Nat
  percentage : ℤ
deriving Repr

/-- Model of `email.toLowerCase().trim()` — the normalization applied to the
student email when inserting a submission (`db.ts` line 218) and when
counting or checking submissions (lines 418, 436, 455). -/
def normalizeEmail (email : String) : String := jsTrim (jsToLower email)

/-- The grading-and-insertion core of `submitQuiz` (lines 187–226): the
row inserted for the given payload against the authoritative quiz. -/
def submitQuizRow (p : SubmitPayload) (quiz : Quiz) : SubmissionRow :=
  let gradedAnswers := gradeAnswers quiz.questions p.answers
  let score := gradedAnswers.countP (fun r => r.isCorrect)
  let total := quiz.questions.length
  { quiz_id := p.quizId
    class_id := quiz.class_id
    class_code := quiz.class_code
    email := normalizeEmail p.email
    full_name := jsTrim p.fullName
    sectionText := jsTrim p.sectionText
    year_course := jsTrim p.yearCourse
    answers := gradedAnswers
    score := score
    total := total
    percentage := gradePercentage score total }

/-- The function `countStudentSubmissions` (`db.ts` lines 447–459): how many stored
submissions match the quiz and the normalized email. -/
def countStudentSubmissions (subs : List SubmissionRow) (quizId email : String) : Nat :=
  (subs.filter (fun s => s.quiz_id == quizId && s.email == normalizeEmail email)).length

/-- The function `checkStudentSubmission` (`db.ts` lines 402–422): `true` means the
student is blocked; the `max_attempts` column may be absent (`?? 1`). -/
def checkStudentSubmission (maxAttemptsCol : Option Nat)
    (subs : List SubmissionRow) (quizId email : String) : Bool :=
  let maxAttempts := maxAttemptsCol.getD 1
  decide (maxAttempts ≤ countStudentSubmissions subs quizId email)

/-- The admission test of `handleInfoSubmit` in `TakeQuizPage.tsx` (lines
150–159): the attempt proceeds unless `count >= limit`. -/
def admitAttempt (count limit : Nat) : Bool :=
  if limit ≤ count then false else true

/-- The inline refusal message built by `handleInfoSubmit` when the
attempt limit is reached. -/
def attemptLimitMessage (count limit : Nat) : String :=
  "⚠️ You already took this quiz " ++ toString count ++ " time" ++
    (if 1 < count then "s" else "") ++
    " and have reached the maximum of " ++ toString limit ++ " attempt" ++
    (if 1 < limit then "s" else "") ++ ". No more retakes allowed."

/-- The pure core of `fetchQuizForStudent` (`db.ts` lines 124–151): strip
every `correctAnswer` and blank the admin-only fields before the quiz
leaves for the student. -/
def fetchQuizForStudent (stored : Quiz) : Quiz :=
  { stored with
    questions := stored.questions.map (fun q => { q with correctAnswer := none })
    admin_id := ""
    raw_input := "" }

/-- The question rewrite performed by `updateQuizCorrectAnswer` (`db.ts`
lines 283–301). -/
def updateQuizCorrectAnswer (quiz : Quiz) (questionNumber : Nat)
    (newCorrectAnswer : String) : Quiz :=
  { quiz with
    questions := quiz.questions.map (fun q =>
      if q.number = questionNumber then { q with correctAnswer := some newCorrectAnswer }
      else q) }

/-! ### Concrete fixtures -/

/-- A one-option question with correct answer `a`, for concrete grading
scenarios. -/
def cexQuestion (n : Nat) : Question :=
  { number := n, question := "q", options := [⟨"a", "x"⟩], correctAnswer := some "a" }

/-- A 40-question quiz: 23 correct answers out of 40 sit exactly on the
57.5 % rounding boundary. -/
def cexQuiz : Quiz :=
  { id := "quiz40", title := "t", class_id := "c1", class_code := "cc"
    admin_id := "adm"
    questions := (List.range 40).map (fun i => cexQuestion (i + 1))
    raw_input := "", is_active := true, max_attempts := 1 }

/-- A payload answering the first 23 questions of `cexQuiz` correctly. -/
def cexPayload : SubmitPayload :=
  { quizId := "quiz40", email := "s@x.y", fullName := "s", sectionText := "s1"
    yearCourse := "y"
    answers := fun n => if n ≤ 23 then some "a" else none }

/-- Raw text whose typed numerals (5 and 9) differ from the parse order. -/
def demoRaw : String := "5. First?\na. x\n====\n9. Second?\nb. y - correct"

/-- A stored quiz with one keyed question. -/
def smallQuiz : Quiz :=
  { id := "quiz1", title := "t", class_id := "c1", class_code := "cc"
    admin_id := "adm", questions := [⟨1, "A?", [⟨"a", "x"⟩], some "a"⟩]
    raw_input := "1. A?\na. x - correct", is_active := true, max_attempts := 2 }

/-- A quiz with no questions: the degenerate grading case. -/
def emptyQuiz : Quiz :=
  { smallQuiz with id := "quiz0", questions := [] }

/-- An answers map that leaves every question unanswered. -/
def noAnswers : Nat → Option String := fun _ => none

/-- One stored submission row, for the attempt-count scenarios. -/
def demoSub : SubmissionRow :=
  { quiz_id := "quiz1", class_id := "c1", class_code := "cc"
    email := "foo@x.y", full_name := "Foo", sectionText := "s1"
    year_course := "y1", answers := [], score := 0, total := 1, percentage := 0 }

/-! ### Helper lemmas -/

theorem getLastQ_cons_or (a : α) (l : List α) :
    (a :: l).getLast? = l.getLast?.or (some a) := by
  induction l generalizing a with
  | nil => rfl
  | cons b bs ih =>
    rw [List.getLast?_cons_cons, ih b]
    cases bs.getLast? <;> rfl

theorem mem_of_getLastQ {l : List α} {a : α} (h : l.getLast? = some a) : a ∈ l := by
  induction l with
  | nil => cases h
  | cons b bs ih =>
    rw [getLastQ_cons_or] at h
    cases hb : bs.getLast? with
    | none =>
      rw [hb] at h
      have h2 : b = a := Option.some.inj h
      subst h2
      exact List.mem_cons_self _ _
    | some c =>
      rw [hb] at h
      have h2 : c = a := Option.some.inj h
      subst h2
      exact List.mem_cons_of_mem _ (ih hb)

end QEMaker

namespace QEMaker

theorem scanLoop_eq (lines : List String) : ∀ (opts : List QuizOption) (ca : Option String),
    scanLoop lines opts ca =
      (opts ++ lines.filterMap emitOption,
       (lines.filterMap markedLabel).getLast?.or ca) := by
  induction lines with
  | nil => intro opts ca; simp [scanLoop]
  | cons l rest ih =>
    intro opts ca
    cases hm : optionMatch l with
    | none =>
      have he : emitOption l = none := by simp [emitOption, hm]
      have hk : markedLabel l = none := by simp [markedLabel, hm]
      simp only [scanLoop, hm, List.filterMap_cons, he, hk]
      exact ih opts ca
    | some p =>
      obtain ⟨label, body⟩ := p
      by_cases hc : hasCorrectMarker (jsTrim body)
      · have he : emitOption l = some ⟨label, jsTrim (stripCorrectMarker (jsTrim body))⟩ := by
          simp [emitOption, hm, hc]
        have hk : markedLabel l = some label := by
          simp [markedLabel, hm, hc]
        simp only [scanLoop, hm, hc, if_true, List.filterMap_cons, he, hk, ih]
        refine Prod.ext ?_ ?_
        · simp
        · show ((rest.filterMap markedLabel).getLast?).or (some label) =
            ((label :: rest.filterMap markedLabel).getLast?).or ca
          rw [getLastQ_cons_or]
          cases (rest.filterMap markedLabel).getLast? <;> rfl
      · have he : emitOption l = some ⟨label, jsTrim body⟩ := by
          simp [emitOption, hm, hc]
        have hk : markedLabel l = none := by
          simp [markedLabel, hm, hc]
        simp only [scanLoop, hm, hc, if_false, List.filterMap_cons, he, hk, ih]
        simp

end QEMaker

namespace QEMaker

theorem markedLabel_emit {l lab : String} (h : markedLabel l = some lab) :
    ∃ t, emitOption l = some ⟨lab, t⟩ := by
  unfold markedLabel at h
  cases hm : optionMatch l with
  | none => rw [hm] at h; cases h
  | some p =>
    rw [hm] at h
    have h2 : (if hasCorrectMarker (jsTrim p.2) then some p.1 else none) = some lab := h
    by_cases hc : hasCorrectMarker (jsTrim p.2)
    · rw [if_pos hc] at h2
      have h3 : p.1 = lab := Option.some.inj h2
      exact ⟨jsTrim (stripCorrectMarker (jsTrim p.2)), by simp [emitOption, hm, hc, h3]⟩
    · rw [if_neg hc] at h2; cases h2

theorem scanLoop_label_mem (ls : List String) :
    ∀ lab, (scanLoop ls [] none).2 = some lab →
      lab ∈ ((scanLoop ls [] none).1).map QuizOption.label := by
  intro lab hl
  rw [scanLoop_eq] at hl
  simp only [Option.or_none] at hl
  have hmem := mem_of_getLastQ hl
  obtain ⟨l2, hl2, hml⟩ := List.mem_filterMap.1 hmem
  obtain ⟨t, he⟩ := markedLabel_emit hml
  have hopt : (⟨lab, t⟩ : QuizOption) ∈ (scanLoop ls [] none).1 := by
    rw [scanLoop_eq]
    simp only [List.nil_append]
    exact List.mem_filterMap.2 ⟨l2, hl2, he⟩
  exact List.mem_map.2 ⟨⟨lab, t⟩, hopt, rfl⟩

theorem parseBlock_some {b qt : String} {opts : List QuizOption} {ca : Option String}
    (h : parseBlock b = some (qt, opts, ca)) :
    qt ≠ "" ∧ opts ≠ [] ∧ ∀ lab, ca = some lab → lab ∈ opts.map QuizOption.label := by
  simp only [parseBlock] at h
  split at h
  · cases h
  · split at h
    · cases h
    · split at h
      · cases h
      · split at h
        · cases h
        · rename_i hqt hopts
          rw [Option.some.injEq, Prod.mk.injEq, Prod.mk.injEq] at h
          obtain ⟨rfl, rfl, rfl⟩ := h
          exact ⟨hqt, hopts, scanLoop_label_mem _⟩

theorem parseLoop_mem {q : Question} : ∀ (bs : List String) (acc : List Question),
    q ∈ parseLoop bs acc →
    q ∈ acc ∨ ∃ b qt opts ca, parseBlock b = some (qt, opts, ca)
      ∧ q.question = qt ∧ q.options = opts ∧ q.correctAnswer = ca := by
  intro bs
  induction bs with
  | nil => intro acc h; exact Or.inl h
  | cons b bs ih =>
    intro acc h
    cases hb : parseBlock b with
    | none =>
      have h2 : q ∈ parseLoop bs acc := by
        simpa only [parseLoop, hb] using h
      exact ih acc h2
    | some triple =>
      obtain ⟨qt, opts, ca⟩ := triple
      have h2 : q ∈ parseLoop bs (acc ++ [⟨acc.length + 1, qt, opts, ca⟩]) := by
        simpa only [parseLoop, hb] using h
      rcases ih _ h2 with hin | hex
      · rcases List.mem_append.1 hin with h3 | h4
        · exact Or.inl h3
        · have h5 := List.mem_singleton.1 h4
          subst h5
          exact Or.inr ⟨b, qt, opts, ca, hb, rfl, rfl, rfl⟩
      · exact Or.inr hex

theorem parseLoop_number : ∀ (bs : List String) (acc : List Question),
    (∀ i : Nat, ∀ q : Question, acc[i]? = some q → q.number = i + 1) →
    ∀ i : Nat, ∀ q : Question, (parseLoop bs acc)[i]? = some q → q.number = i + 1 := by
  intro bs
  induction bs with
  | nil => intro acc hinv i q h; exact hinv i q h
  | cons b bs ih =>
    intro acc hinv i q h
    cases hb : parseBlock b with
    | none =>
      have h2 : (parseLoop bs acc)[i]? = some q := by
        simpa only [parseLoop, hb] using h
      exact ih acc hinv i q h2
    | some triple =>
      obtain ⟨qt, opts, ca⟩ := triple
      have h2 : (parseLoop bs (acc ++ [⟨acc.length + 1, qt, opts, ca⟩]))[i]? = some q := by
        simpa only [parseLoop, hb] using h
      refine ih _ ?_ i q h2
      intro j p hj
      rcases Nat.lt_or_ge j acc.length with hlt | hge
      · rw [List.getElem?_append, if_pos hlt] at hj
        exact hinv j p hj
      · rw [List.getElem?_append, if_neg (Nat.not_lt.2 hge)] at hj
        rcases Nat.lt_or_ge (j - acc.length) 1 with h1 | h1
        · have hj0 : j - acc.length = 0 := Nat.lt_one_iff.1 h1
          rw [hj0] at hj
          have hp : p = ⟨acc.length + 1, qt, opts, ca⟩ := by
            simpa using hj.symm
          have hjlen : j = acc.length := by omega
          rw [hp, hjlen]
        · rw [List.getElem?_eq_none (by simpa using h1)] at hj
          cases hj

end QEMaker

namespace QEMaker

/-- Claim C1: grading produces exactly one `AnswerRecord` per question of
the quiz, in quiz order (the record list is the question list mapped
through `gradeQuestion`); `isCorrect` is true exactly when the answers map
holds a non-empty chosen label equal to the question's `correctAnswer`;
a question absent from the answers map yields `chosen = ""`,
`chosenText = ""` and `isCorrect = false`. -/
theorem claim_grading_completeness (questions : List Question)
    (answers : Nat → Option String) :
    (gradeAnswers questions answers).length = questions.length
    ∧ (∀ i : Nat, (gradeAnswers questions answers)[i]? =
        (questions[i]?).map (gradeQuestion answers))
    ∧ (∀ q : Question,
        ((gradeQuestion answers q).isCorrect = true ↔
          ∃ c, answers q.number = some c ∧ c ≠ "" ∧ q.correctAnswer = some c)
        ∧ (answers q.number = none →
            (gradeQuestion answers q).chosen = ""
            ∧ (gradeQuestion answers q).chosenText = ""
            ∧ (gradeQuestion answers q).isCorrect = false)) := by
  refine ⟨by simp [gradeAnswers],
    fun i => by simp [gradeAnswers, List.getElem?_map], fun q => ⟨?_, ?_⟩⟩
  · cases hca : q.correctAnswer with
    | none =>
      cases ha : answers q.number with
      | none => simp [gradeQuestion, chosenFor, ha, hca]
      | some s =>
        by_cases hs : s = "" <;> simp [gradeQuestion, chosenFor, ha, hca, hs]
    | some a =>
      cases ha : answers q.number with
      | none => simp [gradeQuestion, chosenFor, ha, hca]
      | some s =>
        by_cases hs : s = ""
        · simp [gradeQuestion, chosenFor, ha, hca, hs]
        · simp [gradeQuestion, chosenFor, ha, hca, hs]
          constructor
          · intro h; exact h.symm
          · intro h; exact h.symm
  · intro ha
    refine ⟨?_, ?_, ?_⟩ <;> simp [gradeQuestion, chosenFor, ha]

/-- Claim C1 witness: a one-question quiz with no answer grades to one
record with empty `chosen`, empty `chosenText`, and a false `isCorrect`. -/
theorem claim_grading_completeness_witness :
    (gradeAnswers [cexQuestion 1] noAnswers).length = 1
    ∧ (gradeQuestion noAnswers (cexQuestion 1)).chosen = ""
    ∧ (gradeQuestion noAnswers (cexQuestion 1)).chosenText = ""
    ∧ (gradeQuestion noAnswers (cexQuestion 1)).isCorrect = false := by
  obtain ⟨h1, _, h3⟩ := claim_grading_completeness [cexQuestion 1] noAnswers
  obtain ⟨_, h4⟩ := h3 (cexQuestion 1)
  obtain ⟨ha, hb, hc⟩ := h4 rfl
  exact ⟨h1, ha, hb, hc⟩

end QEMaker

namespace QEMaker

/-- Claim C2 counterexample: grading 23 correct answers on a 40-question
quiz stores percentage 57 — in binary64, `23/40` rounds below `0.575` and
`(23/40)*100` evaluates to `57.49999999999999289…`, which `Math.round`
takes to 57 — while round-half-up of the exact rational `100*23/40 = 57.5`
is 58.  So the stored percentage is not round-half-up of
`100 * score / total`. -/
theorem claim_percentage_counterexample :
    (submitQuizRow cexPayload cexQuiz).score = 23
    ∧ (submitQuizRow cexPayload cexQuiz).total = 40
    ∧ (submitQuizRow cexPayload cexQuiz).percentage = 57
    ∧ specPercentage 23 40 = 58
    ∧ (submitQuizRow cexPayload cexQuiz).percentage ≠
        specPercentage (submitQuizRow cexPayload cexQuiz).score
          (submitQuizRow cexPayload cexQuiz).total := by
  refine ⟨by decide, by decide, ?_, ?_, ?_⟩ <;> with_unfolding_all decide

/-- Claim C2 (amended): for every payload and quiz the graded submission
satisfies `0 ≤ score ≤ total`, `total` is the question count, `score` is
the count of records with `isCorrect = true`, and a zero-question quiz
still grades, with `score = 0` and `percentage = 0`; `percentage` is
`Math.round` applied to the double-precision product `(score/total)*100`
when `total > 0` (and 0 otherwise), which agrees with round-half-up of the
exact rational `100*score/total` except at floating-point half
boundaries. -/
theorem claim_score_bounds_amended (p : SubmitPayload) (quiz : Quiz) :
    (submitQuizRow p quiz).score ≤ (submitQuizRow p quiz).total
    ∧ (submitQuizRow p quiz).total = quiz.questions.length
    ∧ (submitQuizRow p quiz).score =
        ((submitQuizRow p quiz).answers.countP (fun r => r.isCorrect))
    ∧ (quiz.questions = [] →
        (submitQuizRow p quiz).score = 0 ∧ (submitQuizRow p quiz).percentage = 0)
    ∧ (submitQuizRow p quiz).percentage =
        gradePercentage (submitQuizRow p quiz).score (submitQuizRow p quiz).total := by
  refine ⟨?_, rfl, rfl, ?_, rfl⟩
  · have h1 : (submitQuizRow p quiz).score =
        (gradeAnswers quiz.questions p.answers).countP (fun r => r.isCorrect) := rfl
    have h2 : (submitQuizRow p quiz).total = quiz.questions.length := rfl
    rw [h1, h2]
    calc (gradeAnswers quiz.questions p.answers).countP (fun r => r.isCorrect)
        ≤ (gradeAnswers quiz.questions p.answers).length := List.countP_le_length _
      _ = quiz.questions.length := by simp [gradeAnswers]
  · intro hq
    constructor
    · show (gradeAnswers quiz.questions p.answers).countP (fun r => r.isCorrect) = 0
      rw [hq]
      rfl
    · show gradePercentage
        ((gradeAnswers quiz.questions p.answers).countP (fun r => r.isCorrect))
        quiz.questions.length = 0
      rw [hq]
      rfl

/-- Claim C2 witness: the zero-question quiz grades with score 0 and
percentage 0. -/
theorem claim_score_bounds_amended_witness :
    (submitQuizRow cexPayload emptyQuiz).score = 0
    ∧ (submitQuizRow cexPayload emptyQuiz).percentage = 0 :=
  (claim_score_bounds_amended cexPayload emptyQuiz).2.2.2.1 rfl

/-- Claim C3: the option scan stores each marked option's text with the
trailing correct-marker stripped (`emitOption`), and records as the
block's `correctAnswer` the lowercased label of the last marked option
(`markedLabel`, last occurrence winning); concretely,
`"b. Paris - correct"` yields option text `"Paris"` with label `"b"` and
`correctAnswer "b"`. -/
theorem claim_correct_marker :
    (∀ (ls : List String) (opts : List QuizOption) (ca : Option String),
      scanLoop ls opts ca =
        (opts ++ ls.filterMap emitOption,
         (ls.filterMap markedLabel).getLast?.or ca))
    ∧ parseQuiz "1. Capital?\nb. Paris - correct" =
        [⟨1, "Capital?", [⟨"b", "Paris"⟩], some "b"⟩] :=
  ⟨fun ls => scanLoop_eq ls, by decide⟩

/-- Claim C4: the i-th question emitted by the parser is numbered `i + 1`,
whatever numerals the source text used. -/
theorem claim_renumbering (rawText : String) (i : Nat) (q : Question)
    (h : (parseQuiz rawText)[i]? = some q) : q.number = i + 1 := by
  unfold parseQuiz at h
  split at h
  · cases h
  · exact parseLoop_number _ [] (fun j p hp => by cases hp) i q h

/-- Claim C4 witness: input numbered "5." and "9." yields questions
numbered 1 and 2; the second question (index 1) is numbered 2. -/
theorem claim_renumbering_witness :
    (parseQuiz demoRaw)[1]? = some ⟨2, "Second?", [⟨"b", "y"⟩], some "b"⟩
    ∧ (⟨2, "Second?", [⟨"b", "y"⟩], some "b"⟩ : Question).number = 1 + 1 :=
  ⟨by decide, claim_renumbering demoRaw 1 _ (by decide)⟩

end QEMaker

namespace QEMaker

/-- Claim C5: the parser is total — empty or whitespace-only input yields
no questions, and every emitted question has a non-empty options list and
non-empty question text, so malformed blocks (no question line, empty
question text, zero options) contribute no question; garbage input with no
recognizable question line yields the empty list. -/
theorem claim_parser_totality :
    (∀ rawText : String, jsTrim rawText = "" → parseQuiz rawText = [])
    ∧ (∀ rawText : String, ∀ q ∈ parseQuiz rawText, q.options ≠ [] ∧ q.question ≠ "")
    ∧ parseQuiz "hello world\nthis is not a quiz" = [] := by
  refine ⟨?_, ?_, by decide⟩
  · intro raw h
    simp [parseQuiz, h]
  · intro raw q hq
    unfold parseQuiz at hq
    split at hq
    · cases hq
    · rcases parseLoop_mem _ _ hq with hin | ⟨b, qt, opts, ca, hb, hq1, hq2, hq3⟩
      · cases hin
      · obtain ⟨hqt, hopts, _⟩ := parseBlock_some hb
        exact ⟨by rw [hq2]; exact hopts, by rw [hq1]; exact hqt⟩

/-- Claim C5 witness: the empty input parses to nothing, and a question
emitted from concrete input has a non-empty options list. -/
theorem claim_parser_totality_witness :
    parseQuiz "" = []
    ∧ (⟨1, "First?", [⟨"a", "x"⟩], none⟩ : Question).options ≠ [] :=
  ⟨claim_parser_totality.1 "" rfl,
   (claim_parser_totality.2.1 demoRaw ⟨1, "First?", [⟨"a", "x"⟩], none⟩ (by decide)).1⟩

/-- Claim C6: every question in the quiz returned to a student has its
`correctAnswer` stripped to `none`, whatever the stored quiz contains. -/
theorem claim_student_view_strips (stored : Quiz) :
    ∀ q ∈ (fetchQuizForStudent stored).questions, q.correctAnswer = none := by
  intro q hq
  obtain ⟨q0, _, rfl⟩ := List.mem_map.1 hq
  rfl

/-- Claim C6 witness: the stripped form of `smallQuiz`'s keyed question
carries no correct answer. -/
theorem claim_student_view_strips_witness :
    (⟨1, "A?", [⟨"a", "x"⟩], none⟩ : Question).correctAnswer = none :=
  claim_student_view_strips smallQuiz ⟨1, "A?", [⟨"a", "x"⟩], none⟩ (by decide)

/-- Claim C7: an attempt is admitted exactly when the prior-submission
count is strictly below the attempt limit; the refusal message contains
both the count and the limit; with a limit of 2, the second attempt
(count 1) is admitted and the third (count 2) is refused; and the
`checkStudentSubmission` block test is the negation of the admission
test run on the stored-submission count. -/
theorem claim_attempt_gating :
    (∀ count limit : Nat, admitAttempt count limit = true ↔ count < limit)
    ∧ (∀ count limit : Nat, limit ≤ count →
        ∃ s1 s2 s3 : String,
          attemptLimitMessage count limit =
            s1 ++ toString count ++ (s2 ++ toString limit ++ s3))
    ∧ admitAttempt 1 2 = true
    ∧ admitAttempt 2 2 = false
    ∧ (∀ (ma : Option Nat) (subs : List SubmissionRow) (quizId email : String),
        checkStudentSubmission ma subs quizId email =
          !(admitAttempt (countStudentSubmissions subs quizId email) (ma.getD 1))) := by
  refine ⟨?_, ?_, rfl, rfl, ?_⟩
  · intro count limit
    by_cases h : limit ≤ count
    · simp [admitAttempt, h]
    · simp [admitAttempt, h]
      omega
  · intro count limit _
    refine ⟨"⚠️ You already took this quiz ",
      " time" ++ (if 1 < count then "s" else "") ++ " and have reached the maximum of ",
      " attempt" ++ (if 1 < limit then "s" else "") ++ ". No more retakes allowed.", ?_⟩
    simp [attemptLimitMessage, String.append_assoc]
  · intro ma subs quizId email
    by_cases h : ma.getD 1 ≤ countStudentSubmissions subs quizId email <;>
      simp [checkStudentSubmission, admitAttempt, h]

/-- Claim C7 witness: with limit 2, count 1 is admitted, and the count-2
refusal message decomposes around the count and the limit. -/
theorem claim_attempt_gating_witness :
    admitAttempt 1 2 = true
    ∧ ∃ s1 s2 s3 : String,
        attemptLimitMessage 2 2 = s1 ++ toString 2 ++ (s2 ++ toString 2 ++ s3) :=
  ⟨claim_attempt_gating.2.2.1, claim_attempt_gating.2.1 2 2 (by decide)⟩

/-- Claim C8: the student email is lowercased and trimmed before use:
`submitQuiz` stores the normalized email, and any two emails equal after
normalization yield the same stored-submission count for the same quiz. -/
theorem claim_email_normalization :
    (∀ (p : SubmitPayload) (quiz : Quiz),
      (submitQuizRow p quiz).email = normalizeEmail p.email)
    ∧ (∀ e1 e2 : String, normalizeEmail e1 = normalizeEmail e2 →
        ∀ (subs : List SubmissionRow) (quizId : String),
          countStudentSubmissions subs quizId e1 =
            countStudentSubmissions subs quizId e2) := by
  refine ⟨fun p quiz => rfl, ?_⟩
  intro e1 e2 h subs quizId
  unfold countStudentSubmissions
  rw [h]

/-- Claim C8 witness: an email differing only in case and surrounding
whitespace counts the same stored submissions. -/
theorem claim_email_normalization_witness :
    countStudentSubmissions [demoSub] "quiz1" "  Foo@X.Y " =
      countStudentSubmissions [demoSub] "quiz1" "foo@x.y" :=
  claim_email_normalization.2 "  Foo@X.Y " "foo@x.y" (by decide) [demoSub] "quiz1"

/-- Claim C9: `updateQuizCorrectAnswer` keeps the question count and, for
each stored question, rewrites only `correctAnswer` when the question's
`number` matches — preserving `number`, `question` and `options` — and
leaves every non-matching question entirely unchanged. -/
theorem claim_update_frame (quiz : Quiz) (n : Nat) (a : String) :
    (updateQuizCorrectAnswer quiz n a).questions.length = quiz.questions.length
    ∧ ∀ i : Nat, ∀ q : Question, quiz.questions[i]? = some q →
        ∃ q2 : Question, (updateQuizCorrectAnswer quiz n a).questions[i]? = some q2
          ∧ q2.number = q.number ∧ q2.question = q.question ∧ q2.options = q.options
          ∧ (q.number = n → q2.correctAnswer = some a)
          ∧ (q.number ≠ n → q2 = q) := by
  constructor
  · show (quiz.questions.map _).length = _
    simp
  · intro i q hq
    refine ⟨if q.number = n then { q with correctAnswer := some a } else q,
      ?_, ?_, ?_, ?_, ?_, ?_⟩
    · show (quiz.questions.map _)[i]? = _
      rw [List.getElem?_map, hq]
      rfl
    · by_cases h : q.number = n <;> simp [h]
    · by_cases h : q.number = n <;> simp [h]
    · by_cases h : q.number = n <;> simp [h]
    · intro h; rw [if_pos h]
    · intro h; rw [if_neg h]

/-- Claim C9 witness: overwriting question 1's correct answer with "b" in
`smallQuiz` keeps its number, text and options and sets the new answer. -/
theorem claim_update_frame_witness :
    ∃ q2 : Question,
      (updateQuizCorrectAnswer smallQuiz 1 "b").questions[0]? = some q2
      ∧ q2.number = 1 ∧ q2.question = "A?" ∧ q2.options = [⟨"a", "x"⟩]
      ∧ q2.correctAnswer = some "b" := by
  obtain ⟨q2, h1, h2, h3, h4, h5, _⟩ :=
    (claim_update_frame smallQuiz 1 "b").2 0 ⟨1, "A?", [⟨"a", "x"⟩], some "a"⟩ (by decide)
  exact ⟨q2, h1, h2, h3, h4, h5 rfl⟩

/-- Claim C10: whenever a parsed question carries a `correctAnswer`, that
label is the label of one of the question's own options. -/
theorem claim_correct_answer_has_option (rawText : String) :
    ∀ q ∈ parseQuiz rawText, ∀ lab : String, q.correctAnswer = some lab →
      lab ∈ q.options.map QuizOption.label := by
  intro q hq lab hl
  unfold parseQuiz at hq
  split at hq
  · cases hq
  · rcases parseLoop_mem _ _ hq with hin | ⟨b, qt, opts, ca, hb, hq1, hq2, hq3⟩
    · cases hin
    · obtain ⟨_, _, hlab⟩ := parseBlock_some hb
      rw [hq2]
      exact hlab lab (by rw [← hq3]; exact hl)

/-- Claim C10 witness: the marked question parsed from `demoRaw` has its
correct answer "b" among its option labels. -/
theorem claim_correct_answer_has_option_witness :
    "b" ∈ List.map QuizOption.label [(⟨"b", "y"⟩ : QuizOption)] :=
  claim_correct_answer_has_option demoRaw ⟨2, "Second?", [⟨"b", "y"⟩], some "b"⟩
    (by decide) "b" rfl

end QEMaker
